import Mathlib

/-!
Verification development for the simulacrum SC RF service
(`sc_rf_service/sc_rf_service.py` and `sc_rf_service/sc_rf_refactored_service.py`).

The Python code is shallowly embedded: float arithmetic is modelled by exact
rationals (`ℚ`), integer PVs by `ℤ`, enum PVs by inductive types, and the
cooperative `async` loops by explicit recursion on the mutated state.  The
per-tick `await sleep(...)` suspension points carry no data and are dropped;
each loop iteration of the source is one recursive call here.
-/

namespace SCRF

/-! ### JT valve / liquid level loop

From `SimulacrumCM.adjust_liquid_level` in `sc_rf_refactored_service.py`:

    jt_setpoint = self.channels[self.jt_valve_readback_pv].value
    if jt_setpoint * 0.9 > self.jt_stable_pos:
        while (self.channels[self.jt_valve_readback_pv].value * 0.9 > self.jt_stable_pos
               and 70 <= self.channels[self.ds_level_pv].value <= 100):
            curr = self.channels[self.ds_level_pv].value
            await self.channels[self.ds_level_pv].write(curr - LOSS_AMOUNT)   # 0.01
            await sleep(SLEEP_AMOUNT)
    elif jt_setpoint * 1.1 < self.jt_stable_pos:
        while (... * 1.1 < self.jt_stable_pos and 70 <= ... <= 100):
            ... write(curr + GAIN_AMOUNT) ...

The setpoint (valve readback) and stable position are not modified by the loop
body, so in the sequential semantics they are plain parameters `s` and `st`;
only the downstream level `l` evolves. -/

/-- The "too high" while-loop: decrement the downstream level by 0.01 while
`s * 0.9 > st` and the level is inside `[70, 100]`. -/
def llDown (s st l : ℚ) : ℚ :=
  if h : st < s * (9 / 10) ∧ 70 ≤ l ∧ l ≤ 100 then
    llDown s st (l - 1 / 100)
  else l
termination_by (⌊(l - 70) * 100⌋ + 1).toNat
decreasing_by
  have h70 : (70 : ℚ) ≤ l := h.2.1
  have hx : (0 : ℚ) ≤ (l - 70) * 100 := by nlinarith
  have h0 : 0 ≤ ⌊(l - 70) * 100⌋ := Int.floor_nonneg.mpr hx
  have hstep : ⌊(l - 1 / 100 - 70) * 100⌋ = ⌊(l - 70) * 100⌋ - 1 := by
    have h1 : (l - 1 / 100 - 70) * 100 = (l - 70) * 100 - ((1 : ℤ) : ℚ) := by
      push_cast; ring
    rw [h1, Int.floor_sub_int]
  omega

/-- The "too low" while-loop: increment the downstream level by 0.01 while
`s * 1.1 < st` and the level is inside `[70, 100]`. -/
def llUp (s st l : ℚ) : ℚ :=
  if h : s * (11 / 10) < st ∧ 70 ≤ l ∧ l ≤ 100 then
    llUp s st (l + 1 / 100)
  else l
termination_by (⌊(100 - l) * 100⌋ + 1).toNat
decreasing_by
  have h100 : l ≤ (100 : ℚ) := h.2.2
  have hx : (0 : ℚ) ≤ (100 - l) * 100 := by nlinarith
  have h0 : 0 ≤ ⌊(100 - l) * 100⌋ := Int.floor_nonneg.mpr hx
  have hstep : ⌊(100 - (l + 1 / 100)) * 100⌋ = ⌊(100 - l) * 100⌋ - 1 := by
    have h1 : (100 - (l + 1 / 100)) * 100 = (100 - l) * 100 - ((1 : ℤ) : ℚ) := by
      push_cast; ring
    rw [h1, Int.floor_sub_int]
  omega

/-- `SimulacrumCM.adjust_liquid_level`: dispatch on the band comparison between
the JT valve setpoint (readback) `s` and the stable heat load `st`, then run
the corresponding while-loop on the downstream level `l`. -/
def adjust_liquid_level (s st l : ℚ) : ℚ :=
  if st < s * (9 / 10) then llDown s st l
  else if s * (11 / 10) < st then llUp s st l
  else l

theorem llDown_noop (s st l : ℚ)
    (h : ¬(st < s * (9 / 10) ∧ 70 ≤ l ∧ l ≤ 100)) : llDown s st l = l := by
  rw [llDown]
  exact dif_neg h

theorem llUp_noop (s st l : ℚ)
    (h : ¬(s * (11 / 10) < st ∧ 70 ≤ l ∧ l ≤ 100)) : llUp s st l = l := by
  rw [llUp]
  exact dif_neg h

theorem llDown_le_aux (s st : ℚ) (m : ℕ) :
    ∀ l : ℚ, (⌊(l - 70) * 100⌋ + 1).toNat ≤ m →
      llDown s st l ≤ l ∧ (∃ n : ℕ, llDown s st l = l - n / 100) ∧
      ¬(st < s * (9 / 10) ∧ 70 ≤ llDown s st l ∧ llDown s st l ≤ 100) := by
  induction m with
  | zero =>
      intro l hm
      rw [llDown]
      split
      · rename_i h
        exfalso
        have h70 : (70 : ℚ) ≤ l := h.2.1
        have hx : (0 : ℚ) ≤ (l - 70) * 100 := by nlinarith
        have h0 : 0 ≤ ⌊(l - 70) * 100⌋ := Int.floor_nonneg.mpr hx
        omega
      · rename_i h
        refine ⟨le_refl l, ⟨0, by norm_num⟩, h⟩
  | succ m ih =>
      intro l hm
      rw [llDown]
      split
      · rename_i h
        have h70 : (70 : ℚ) ≤ l := h.2.1
        have hx : (0 : ℚ) ≤ (l - 70) * 100 := by nlinarith
        have h0 : 0 ≤ ⌊(l - 70) * 100⌋ := Int.floor_nonneg.mpr hx
        have hstep : ⌊(l - 1 / 100 - 70) * 100⌋ = ⌊(l - 70) * 100⌋ - 1 := by
          have h1 : (l - 1 / 100 - 70) * 100 = (l - 70) * 100 - ((1 : ℤ) : ℚ) := by
            push_cast; ring
          rw [h1, Int.floor_sub_int]
        have hm' : (⌊(l - 1 / 100 - 70) * 100⌋ + 1).toNat ≤ m := by omega
        obtain ⟨hle, ⟨n, hn⟩, hfin⟩ := ih (l - 1 / 100) hm'
        refine ⟨by linarith, ⟨n + 1, ?_⟩, hfin⟩
        rw [hn]; push_cast; ring
      · rename_i h
        refine ⟨le_refl l, ⟨0, by norm_num⟩, h⟩

theorem llDown_spec (s st l : ℚ) :
    llDown s st l ≤ l ∧ (∃ n : ℕ, llDown s st l = l - n / 100) ∧
      ¬(st < s * (9 / 10) ∧ 70 ≤ llDown s st l ∧ llDown s st l ≤ 100) :=
  llDown_le_aux s st (⌊(l - 70) * 100⌋ + 1).toNat l (le_refl _)

theorem llUp_ge_aux (s st : ℚ) (m : ℕ) :
    ∀ l : ℚ, (⌊(100 - l) * 100⌋ + 1).toNat ≤ m →
      l ≤ llUp s st l ∧ (∃ n : ℕ, llUp s st l = l + n / 100) ∧
      ¬(s * (11 / 10) < st ∧ 70 ≤ llUp s st l ∧ llUp s st l ≤ 100) := by
  induction m with
  | zero =>
      intro l hm
      rw [llUp]
      split
      · rename_i h
        exfalso
        have h100 : l ≤ (100 : ℚ) := h.2.2
        have hx : (0 : ℚ) ≤ (100 - l) * 100 := by nlinarith
        have h0 : 0 ≤ ⌊(100 - l) * 100⌋ := Int.floor_nonneg.mpr hx
        omega
      · rename_i h
        refine ⟨le_refl l, ⟨0, by norm_num⟩, h⟩
  | succ m ih =>
      intro l hm
      rw [llUp]
      split
      · rename_i h
        have h100 : l ≤ (100 : ℚ) := h.2.2
        have hx : (0 : ℚ) ≤ (100 - l) * 100 := by nlinarith
        have h0 : 0 ≤ ⌊(100 - l) * 100⌋ := Int.floor_nonneg.mpr hx
        have hstep : ⌊(100 - (l + 1 / 100)) * 100⌋ = ⌊(100 - l) * 100⌋ - 1 := by
          have h1 : (100 - (l + 1 / 100)) * 100 = (100 - l) * 100 - ((1 : ℤ) : ℚ) := by
            push_cast; ring
          rw [h1, Int.floor_sub_int]
        have hm' : (⌊(100 - (l + 1 / 100)) * 100⌋ + 1).toNat ≤ m := by omega
        obtain ⟨hle, ⟨n, hn⟩, hfin⟩ := ih (l + 1 / 100) hm'
        refine ⟨by linarith, ⟨n + 1, ?_⟩, hfin⟩
        rw [hn]; push_cast; ring
      · rename_i h
        refine ⟨le_refl l, ⟨0, by norm_num⟩, h⟩

theorem llUp_spec (s st l : ℚ) :
    l ≤ llUp s st l ∧ (∃ n : ℕ, llUp s st l = l + n / 100) ∧
      ¬(s * (11 / 10) < st ∧ 70 ≤ llUp s st l ∧ llUp s st l ≤ 100) :=
  llUp_ge_aux s st (⌊(100 - l) * 100⌋ + 1).toNat l (le_refl _)

theorem llUp_strict (s st l : ℚ) (hc : s * (11 / 10) < st)
    (h70 : 70 ≤ l) (h100 : l ≤ 100) : l < llUp s st l := by
  rw [llUp]
  rw [dif_pos ⟨hc, h70, h100⟩]
  have := (llUp_spec s st (l + 1 / 100)).1
  linarith

/-! ### Cryomodule heat load

From `CryomodulePVGroup` in `sc_rf_service.py`:

    def calc_rf_heat_load(self):
        rf_heat = 0
        for _, cavity in self.cavities.items():
            rf_heat += (cavity.aact.value * 1e6) ** 2 / (1012 * cavity.q0.value)
        return rf_heat

    def total_heat(self, on_start=False, heater_value=None):
        if heater_value:
            self.heater_value = heater_value
        total_heat = self.calc_rf_heat_load() + self.heater_value
        ...
        return total_heat

Python's `if heater_value:` is false both for `None` and for `0`/`0.0`, which
the `Option ℚ` match below mirrors exactly. -/

/-- The per-cavity data the heat-load formula reads: amplitude readback `AACT`
and quality factor `Q0`. -/
structure CavHeat where
  aact : ℚ
  q0 : ℚ
deriving DecidableEq

/-- `CryomodulePVGroup.calc_rf_heat_load`, accumulating over the cavity
collection in iteration order. -/
def calc_rf_heat_load (cavities : List CavHeat) : ℚ :=
  cavities.foldl
    (fun rf_heat cavity => rf_heat + (cavity.aact * 1000000) ^ 2 / (1012 * cavity.q0)) 0

/-- Mutable state of `CryomodulePVGroup`: the cavity collection and
`self.heater_value`. -/
structure CryomoduleState where
  cavities : List CavHeat
  heater_value : ℚ
deriving DecidableEq

/-- `CryomodulePVGroup.total_heat` (the `on_start` flag only controls a print
and is dropped).  Returns the total together with the post-call group state,
since `total_heat` mutates `self.heater_value` for truthy overrides. -/
def total_heat (cm : CryomoduleState) (heater_value : Option ℚ) : ℚ × CryomoduleState :=
  let cm1 :=
    match heater_value with
    | some v => if v = 0 then cm else { cm with heater_value := v }
    | none => cm
  (calc_rf_heat_load cm1.cavities + cm1.heater_value, cm1)

theorem calc_rf_heat_load_foldl (cavities : List CavHeat) :
    ∀ a : ℚ,
      cavities.foldl
        (fun rf_heat cavity => rf_heat + (cavity.aact * 1000000) ^ 2 / (1012 * cavity.q0)) a
      = a + (cavities.map fun cavity => (cavity.aact * 1000000) ^ 2 / (1012 * cavity.q0)).sum := by
  induction cavities with
  | nil => intro a; simp
  | cons c cs ih =>
      intro a
      simp only [List.foldl_cons, List.map_cons, List.sum_cons]
      rw [ih]
      ring

theorem calc_rf_heat_load_eq_sum (cavities : List CavHeat) :
    calc_rf_heat_load cavities
      = (cavities.map fun cavity => (cavity.aact * 1000000) ^ 2 / (1012 * cavity.q0)).sum := by
  unfold calc_rf_heat_load
  rw [calc_rf_heat_load_foldl]
  ring

theorem calc_rf_heat_load_perm (l1 l2 : List CavHeat) (h : l1.Perm l2) :
    calc_rf_heat_load l1 = calc_rf_heat_load l2 := by
  rw [calc_rf_heat_load_eq_sum, calc_rf_heat_load_eq_sum]
  exact List.Perm.sum_eq (List.Perm.map _ h)

/-- C1 (amended): a JT setpoint write triggers `adjust_liquid_level`.  When the
setpoint is too high (`setpoint * 0.9 > stable`) the downstream level only ever
decreases, in exact steps of 0.01; when it is too low (`setpoint * 1.1 <
stable`, checked only after the first comparison fails) it only ever increases
in steps of 0.01; when neither product comparison holds, or the level starts
outside `[70, 100]`, nothing moves.  On return neither while-guard holds any
more: the loop never continues past the condition
`¬(setpoint * 0.9 > stable) ∧ ¬(setpoint * 1.1 < stable)` or past the safety
bound `[70, 100]`.  (The spec's ratio band `0.9 ≤ setpoint/stable ≤ 1.1` is not
the band the code implements; see the counterexample.) -/
theorem jt_adjust_liquid_level_amended (s st l : ℚ) :
    (st < s * (9 / 10) →
      adjust_liquid_level s st l ≤ l ∧
        ∃ n : ℕ, adjust_liquid_level s st l = l - n / 100) ∧
    (¬ st < s * (9 / 10) → s * (11 / 10) < st →
      l ≤ adjust_liquid_level s st l ∧
        ∃ n : ℕ, adjust_liquid_level s st l = l + n / 100) ∧
    (¬ st < s * (9 / 10) → ¬ s * (11 / 10) < st → adjust_liquid_level s st l = l) ∧
    (¬ (70 ≤ l ∧ l ≤ 100) → adjust_liquid_level s st l = l) ∧
    ¬ (st < s * (9 / 10) ∧ 70 ≤ adjust_liquid_level s st l ∧
        adjust_liquid_level s st l ≤ 100) ∧
    ¬ (s * (11 / 10) < st ∧ 70 ≤ adjust_liquid_level s st l ∧
        adjust_liquid_level s st l ≤ 100) := by
  unfold adjust_liquid_level
  by_cases hd : st < s * (9 / 10)
  · simp only [if_pos hd]
    obtain ⟨hle, hex, hfin⟩ := llDown_spec s st l
    refine ⟨fun _ => ⟨hle, hex⟩, fun hnd => absurd hd hnd, fun hnd => absurd hd hnd,
      fun hb => llDown_noop s st l ?_, hfin, ?_⟩
    · intro hg; exact hb ⟨hg.2.1, hg.2.2⟩
    · intro hg
      exact hfin ⟨hd, hg.2⟩
  · simp only [if_neg hd]
    by_cases hu : s * (11 / 10) < st
    · simp only [if_pos hu]
      obtain ⟨hge, hex, hfin⟩ := llUp_spec s st l
      refine ⟨fun h => absurd h hd, fun _ _ => ⟨hge, hex⟩, fun _ hnu => absurd hu hnu,
        fun hb => llUp_noop s st l ?_, ?_, hfin⟩
      · intro hg; exact hb ⟨hg.2.1, hg.2.2⟩
      · intro hg; exact hd hg.1
    · simp only [if_neg hu]
      refine ⟨fun h => absurd h hd, fun _ h => absurd h hu, fun _ _ => by trivial,
        fun _ => by trivial, fun hg => hd hg.1, fun hg => hu hg.1⟩

/-- C1 witness: with setpoint 40 and stable heat load 24 the setpoint is too
high, and the triggered loop only lowers the level from 93. -/
theorem jt_adjust_liquid_level_amended_witness :
    (24 : ℚ) < 40 * (9 / 10) ∧ adjust_liquid_level 40 24 93 ≤ 93 :=
  ⟨by norm_num, ((jt_adjust_liquid_level_amended 40 24 93).1 (by norm_num)).1⟩

/-- C1 counterexample: setpoint 0.905, stable heat load 1, level 93.  The
spec's ratio `setpoint/stable = 0.905` lies inside the claimed tolerance band
`[0.9, 1.1]` and the level is safely inside `[70, 100]`, so by the claim the
loop must stop at once; but `setpoint * 1.1 < stable` holds, so the code's
while-loop runs and moves the downstream level anyway. -/
theorem jt_adjust_liquid_level_counterexample :
    ((9 : ℚ) / 10 ≤ (181 / 200) / 1 ∧ ((181 : ℚ) / 200) / 1 ≤ 11 / 10) ∧
      (70 : ℚ) ≤ 93 ∧ (93 : ℚ) ≤ 100 ∧
      adjust_liquid_level (181 / 200) 1 93 ≠ 93 := by
  refine ⟨⟨by norm_num, by norm_num⟩, by norm_num, by norm_num, ?_⟩
  have hbranch : adjust_liquid_level (181 / 200) 1 93 = llUp (181 / 200) 1 93 := by
    unfold adjust_liquid_level
    norm_num
  rw [hbranch]
  have := llUp_strict (181 / 200) 1 93 (by norm_num) (by norm_num) (by norm_num)
  exact fun h => absurd (h ▸ this) (lt_irrefl _)

/-- A one-cavity cryomodule with amplitude 0 (so zero RF heat) and the default
heater value 24.0, used to exercise the heater-override path. -/
def cmZero : CryomoduleState := ⟨[⟨0, 30000000000⟩], 24⟩

/-- C2 counterexample: calling `total_heat` with `heater_value = 0` does not
return `rf_heat + 0`.  Python's `if heater_value:` treats `0` like `None`, so
the override is silently dropped and the stored heater value 24 is used. -/
theorem total_heat_counterexample :
    (total_heat cmZero (some 0)).1 ≠ calc_rf_heat_load cmZero.cavities + 0 ∧
      (total_heat cmZero (some 0)).1 = calc_rf_heat_load cmZero.cavities + 24 := by
  constructor
  · norm_num [total_heat, calc_rf_heat_load, cmZero]
  · norm_num [total_heat, calc_rf_heat_load, cmZero]

/-- C2 (amended): `total_heat` returns the exact sum
`Σ (aact · 10⁶)² / (1012 · Q0)` over the module's cavities plus the heater
contribution, where the heater contribution is the override only when one is
supplied and nonzero (Python truthiness) and the stored heater value
otherwise; the override, when used, is also stored back.  The RF sum is
independent of the order in which the cavities are iterated. -/
theorem total_heat_amended (cm : CryomoduleState) (hv : Option ℚ) (l2 : List CavHeat)
    (hperm : cm.cavities.Perm l2) :
    (total_heat cm hv).1 = calc_rf_heat_load l2 + (total_heat cm hv).2.heater_value ∧
      (total_heat cm hv).2.heater_value =
        (match hv with
          | some v => if v = 0 then cm.heater_value else v
          | none => cm.heater_value) ∧
      (total_heat cm hv).2.cavities = cm.cavities := by
  have hcalc : calc_rf_heat_load cm.cavities = calc_rf_heat_load l2 :=
    calc_rf_heat_load_perm _ _ hperm
  rcases hv with _ | v
  · refine ⟨?_, ?_, ?_⟩ <;> simp [total_heat, hcalc]
  · by_cases hz : v = 0
    · subst hz
      refine ⟨?_, ?_, ?_⟩ <;> simp [total_heat, hcalc]
    · refine ⟨?_, ?_, ?_⟩ <;> simp [total_heat, hz, hcalc]

/-- C2 witness: a two-cavity module summed in both orders, with a nonzero
override 30 that is used and stored. -/
theorem total_heat_amended_witness :
    (([⟨1, 1⟩, ⟨2, 1⟩] : List CavHeat).Perm [⟨2, 1⟩, ⟨1, 1⟩]) ∧
      (total_heat ⟨[⟨1, 1⟩, ⟨2, 1⟩], 24⟩ (some 30)).1 =
        calc_rf_heat_load [⟨2, 1⟩, ⟨1, 1⟩] +
          (total_heat ⟨[⟨1, 1⟩, ⟨2, 1⟩], 24⟩ (some 30)).2.heater_value := by
  have hperm : (([⟨1, 1⟩, ⟨2, 1⟩] : List CavHeat).Perm [⟨2, 1⟩, ⟨1, 1⟩]) := by
    decide
  exact ⟨hperm, (total_heat_amended ⟨[⟨1, 1⟩, ⟨2, 1⟩], 24⟩ (some 30) _ hperm).1⟩

/-! ### Refactored cryomodule state and heater setpoint

From `SimulacrumCM` in `sc_rf_refactored_service.py`:

    def total_heat_load(self, heater_value=None, amp_change=None):
        rf_heat = 0
        for cavity in self.cavities.values():
            aact = channels[cavity.aact_pv].value
            ...
            rf_heat += (aact * 1e6) ** 2 / (1012 * channels[...Q0].value)
        heater = self.channels[self.heater_setpoint].value if not heater_value else heater_value
        return rf_heat + heater

    async def heater_setpoint_update(self, value):
        self.jt_stable_pos = self.total_heat_load(heater_value=value)
        if self.channels[self.heater_mode].value == "MANUAL":
            await self.channels[self.heater_readback_pv].write(value)
            await self.adjust_liquid_level()

The `amp_change` parameter is `None` at the heater call site and is omitted.
A channel putter runs before the written value is committed, so during
`heater_setpoint_update` the setpoint channel still holds its old value; the
new value is committed when the putter returns, which the final record update
models. -/

/-- Mutable state of a `SimulacrumCM`: its cavity channels, the heater
channels, the heater mode string (modelled as "is the mode string MANUAL"),
the JT valve readback, the JT stable position and the downstream level. -/
structure CMState where
  cavities : List CavHeat
  heater_setpoint : ℚ
  heater_readback : ℚ
  heater_mode_manual : Bool
  jt_readback : ℚ
  jt_stable_pos : ℚ
  ds_level : ℚ
deriving DecidableEq

/-- `SimulacrumCM.total_heat_load` (with `amp_change = None`).  As in
`total_heat`, a zero override is dropped by Python truthiness (`if not
heater_value`), falling back to the setpoint channel. -/
def total_heat_load (cm : CMState) (heater_value : Option ℚ) : ℚ :=
  calc_rf_heat_load cm.cavities +
    (match heater_value with
      | some v => if v = 0 then cm.heater_setpoint else v
      | none => cm.heater_setpoint)

/-- `SimulacrumCM.heater_setpoint_update`, the putter of the heater setpoint
channel, followed by the channel framework committing the written value. -/
def heater_setpoint_update (cm : CMState) (value : ℚ) : CMState :=
  let cm1 := { cm with jt_stable_pos := total_heat_load cm (some value) }
  let cm2 :=
    if cm1.heater_mode_manual then
      let cm3 := { cm1 with heater_readback := value }
      { cm3 with ds_level := adjust_liquid_level cm3.jt_readback cm3.jt_stable_pos cm3.ds_level }
    else cm1
  { cm2 with heater_setpoint := value }

/-- A cryomodule whose heater mode string is not MANUAL (the default is
SEQUENCER), with zero RF heat and heater setpoint 24. -/
def cmSequencer : CMState :=
  ⟨[⟨0, 30000000000⟩], 24, 24, false, 40, 24, 93⟩

/-- C3 counterexample: with the heater mode not Manual, writing setpoint 30
still changes the stored stable heat load from 24 to 30 (and the setpoint
channel itself), contradicting "the write has no effect at all". -/
theorem heater_setpoint_counterexample :
    cmSequencer.heater_mode_manual = false ∧
      cmSequencer.jt_stable_pos = 24 ∧
      (heater_setpoint_update cmSequencer 30).jt_stable_pos = 30 ∧
      (heater_setpoint_update cmSequencer 30).heater_setpoint = 30 := by
  refine ⟨rfl, rfl, ?_, ?_⟩
  · norm_num [heater_setpoint_update, total_heat_load, calc_rf_heat_load, cmSequencer]
  · norm_num [heater_setpoint_update, cmSequencer]

/-- C3 (amended): a heater setpoint write always recomputes the stable heat
load with the written value as override and always commits the setpoint
channel; only when the mode string is MANUAL does it additionally write the
heater readback and trigger the JT liquid-level loop, and only then do the
readback and downstream level change. -/
theorem heater_setpoint_update_amended (cm : CMState) (value : ℚ) :
    (cm.heater_mode_manual = true →
      (heater_setpoint_update cm value).heater_readback = value ∧
      (heater_setpoint_update cm value).ds_level =
        adjust_liquid_level cm.jt_readback (total_heat_load cm (some value)) cm.ds_level) ∧
    (cm.heater_mode_manual = false →
      (heater_setpoint_update cm value).heater_readback = cm.heater_readback ∧
      (heater_setpoint_update cm value).ds_level = cm.ds_level) ∧
    (heater_setpoint_update cm value).jt_stable_pos = total_heat_load cm (some value) ∧
    (heater_setpoint_update cm value).heater_setpoint = value := by
  by_cases hm : cm.heater_mode_manual
  · refine ⟨fun _ => ⟨?_, ?_⟩, fun hf => absurd hm (by simp [hf]), ?_, ?_⟩ <;>
      simp [heater_setpoint_update, hm]
  · refine ⟨fun ht => absurd ht hm, fun _ => ⟨?_, ?_⟩, ?_, ?_⟩ <;>
      simp [heater_setpoint_update, hm]

/-- C3 witness: a MANUAL-mode module takes the readback write and the JT
re-trigger. -/
theorem heater_setpoint_update_amended_witness :
    (({ cmSequencer with heater_mode_manual := true } : CMState).heater_mode_manual = true) ∧
      (heater_setpoint_update { cmSequencer with heater_mode_manual := true } 30).heater_readback
        = 30 :=
  ⟨rfl,
    ((heater_setpoint_update_amended { cmSequencer with heater_mode_manual := true } 30).1
      rfl).1⟩

/-! ### Cavity amplitude / gradient putters

From `CavityPVGroup` in `sc_rf_service.py`:

    @ades.putter
    async def ades(self, instance, value):
        await self.aact.write(value)
        await self.amean.write(value)
        gradient = value / self.length
        if self.gact.value != gradient:
            await self.gdes.write(gradient)

    @gdes.putter
    async def gdes(self, instance, value):
        await self.gact.write(value)
        amplitude = value * self.length
        if self.aact.value != amplitude:
            await self.ades.write(amplitude)

    async def power_off(self):  zeroes amean, aact, gact; rf_state_act = Off
    async def power_on(self):   aact, amean := ades; gact := gdes; rf_state_act = On

A `pv.write` runs the putter and commits the written value to the PV, so each
putter here also records its own `value` into the corresponding desired field.
The two putters call each other through `gdes.write` / `ades.write`; the
mutual cascade is embedded as one function `cavPut` with an explicit recursion
depth (`fuel`), with the putter tagged by a `Bool` (`true` = amplitude putter,
`false` = gradient putter).  At fuel 0 the cascade is cut off and the state is
returned as-is; the termination claim is exactly that fuel 2 is always enough. -/

/-- Mutable cavity state: the amplitude/gradient PVs, the RF state and the
fixed cavity length (1.038 m, or 0.346 m for a high-loaded cryomodule). -/
structure CavState where
  ades : ℚ
  aact : ℚ
  amean : ℚ
  gdes : ℚ
  gact : ℚ
  rf_on : Bool
  length : ℚ
deriving DecidableEq

/-- The mutually-cascading amplitude (`tag = true`) and gradient
(`tag = false`) putters, with explicit cascade depth. -/
def cavPut : ℕ → Bool → CavState → ℚ → CavState
  | 0, _, c, _ => c
  | fuel + 1, true, c, value =>
      let c1 := { c with aact := value, amean := value, ades := value }
      let gradient := value / c1.length
      if c1.gact ≠ gradient then cavPut fuel false c1 gradient else c1
  | fuel + 1, false, c, value =>
      let c1 := { c with gact := value, gdes := value }
      let amplitude := value * c1.length
      if c1.aact ≠ amplitude then cavPut fuel true c1 amplitude else c1

/-- Writing the `ADES` PV (the `ades` putter) at a given cascade depth. -/
def adesPut (fuel : ℕ) (c : CavState) (value : ℚ) : CavState :=
  cavPut fuel true c value

/-- Writing the `GDES` PV (the `gdes` putter) at a given cascade depth. -/
def gdesPut (fuel : ℕ) (c : CavState) (value : ℚ) : CavState :=
  cavPut fuel false c value

/-- `CavityPVGroup.power_off`. -/
def power_off (c : CavState) : CavState :=
  { c with amean := 0, aact := 0, gact := 0, rf_on := false }

/-- `CavityPVGroup.power_on`. -/
def power_on (c : CavState) : CavState :=
  { c with aact := c.ades, amean := c.ades, gact := c.gdes, rf_on := true }

/-- `CavityPVGroup.__init__(prefix, isHL)` with the PV default values
(`ADES = AACT = AACTMEAN = 16.6`, `GDES = GACT = 16.0`, RF on). -/
def mkCavity (isHL : Bool) : CavState :=
  { ades := 83 / 5, aact := 83 / 5, amean := 83 / 5, gdes := 16, gact := 16,
    rf_on := true, length := if isHL then 173 / 500 else 519 / 500 }

theorem cavPut_zero (b : Bool) (c : CavState) (value : ℚ) :
    cavPut 0 b c value = c := rfl

theorem cavPut_succ_true (fuel : ℕ) (c : CavState) (value : ℚ) :
    cavPut (fuel + 1) true c value =
      (let c1 := { c with aact := value, amean := value, ades := value }
       let gradient := value / c1.length
       if c1.gact ≠ gradient then cavPut fuel false c1 gradient else c1) := rfl

theorem cavPut_succ_false (fuel : ℕ) (c : CavState) (value : ℚ) :
    cavPut (fuel + 1) false c value =
      (let c1 := { c with gact := value, gdes := value }
       let amplitude := value * c1.length
       if c1.aact ≠ amplitude then cavPut fuel true c1 amplitude else c1) := rfl

/-- If the state already satisfies `aact = value * length`, the gradient
putter does not cascade back, whatever fuel is left. -/
theorem cavPut_false_stops (fuel : ℕ) (c : CavState) (value : ℚ)
    (h : c.aact = value * c.length) :
    cavPut (fuel + 1) false c value = { c with gact := value, gdes := value } := by
  rw [cavPut_succ_false]
  simp only []
  rw [if_neg]
  simp only [ne_eq, not_not]
  exact h

/-- If the state already satisfies `gact = value / length`, the amplitude
putter does not cascade back, whatever fuel is left. -/
theorem cavPut_true_stops (fuel : ℕ) (c : CavState) (value : ℚ)
    (h : c.gact = value / c.length) :
    cavPut (fuel + 1) true c value =
      { c with aact := value, amean := value, ades := value } := by
  rw [cavPut_succ_true]
  simp only []
  rw [if_neg]
  simp only [ne_eq, not_not]
  exact h

/-- Closed form of the amplitude putter at any fuel of at least 2 (requires a
nonzero length, which holds for every constructed cavity). -/
theorem adesPut_closed (fuel : ℕ) (c : CavState) (value : ℚ) (hl : c.length ≠ 0) :
    adesPut (fuel + 2) c value =
      (if c.gact = value / c.length then
        { c with aact := value, amean := value, ades := value }
      else
        { c with aact := value, amean := value, ades := value,
                 gact := value / c.length, gdes := value / c.length }) := by
  unfold adesPut
  rw [show fuel + 2 = (fuel + 1) + 1 from rfl, cavPut_succ_true]
  simp only []
  by_cases hg : c.gact = value / c.length
  · rw [if_neg (by simp [hg]), if_pos hg]
  · rw [if_pos (by simp [hg]), if_neg hg]
    rw [cavPut_false_stops]
    simp [div_mul_cancel₀, hl]

/-- Closed form of the gradient putter at any fuel of at least 2 (requires a
nonzero length). -/
theorem gdesPut_closed (fuel : ℕ) (c : CavState) (value : ℚ) (hl : c.length ≠ 0) :
    gdesPut (fuel + 2) c value =
      (if c.aact = value * c.length then
        { c with gact := value, gdes := value }
      else
        { c with gact := value, gdes := value,
                 aact := value * c.length, amean := value * c.length,
                 ades := value * c.length }) := by
  unfold gdesPut
  rw [show fuel + 2 = (fuel + 1) + 1 from rfl, cavPut_succ_false]
  simp only []
  by_cases ha : c.aact = value * c.length
  · rw [if_neg (by simp [ha]), if_pos ha]
  · rw [if_pos (by simp [ha]), if_neg ha]
    rw [cavPut_true_stops]
    simp [mul_div_cancel_right₀, hl]

/-- C4 counterexample: after `power_off` the cavity has `rf_on = false` and
`aact = 0`, yet writing `ADES = 5` immediately sets `aact = 5` (and
`amean = 5`), before any `power_on`.  The claim that the actual fields stay 0
until the next `power_on()` is false on the code. -/
theorem rf_off_write_counterexample :
    (power_off (mkCavity false)).rf_on = false ∧
      (power_off (mkCavity false)).aact = 0 ∧
      (adesPut 2 (power_off (mkCavity false)) 5).aact = 5 ∧
      (adesPut 2 (power_off (mkCavity false)) 5).amean = 5 := by
  refine ⟨rfl, rfl, ?_, ?_⟩ <;>
    norm_num [adesPut, power_off, mkCavity,
      show (2 : ℕ) = 1 + 1 from rfl, cavPut_succ_true, cavPut_succ_false, cavPut_zero]

/-- C4 (amended): the putters have no RF gate.  A desired-value write while
`rf_on = false` updates the actual fields exactly as it would with RF on:
`aact = amean = value` after an amplitude write, `gact = value` after a
gradient write, with `rf_on` itself left false; a later `power_on()` (re)copies
the desired values into the actual fields. -/
theorem rf_off_write_amended (c : CavState) (value : ℚ) (hoff : c.rf_on = false) :
    (adesPut 2 c value).aact = value ∧
      (adesPut 2 c value).amean = value ∧
      (adesPut 2 c value).rf_on = false ∧
      (gdesPut 2 c value).gact = value ∧
      (gdesPut 2 c value).rf_on = false ∧
      (power_on (adesPut 2 c value)).aact = (adesPut 2 c value).ades := by
  have h2 : (2 : ℕ) = 1 + 1 := rfl
  have hades :
      (adesPut 2 c value).aact = value ∧ (adesPut 2 c value).amean = value ∧
        (adesPut 2 c value).rf_on = false := by
    unfold adesPut
    rw [h2, cavPut_succ_true]
    simp only []
    split
    · rw [show (1 : ℕ) = 0 + 1 from rfl, cavPut_succ_false]
      simp only []
      split
      · rw [cavPut_zero]
        exact ⟨rfl, rfl, hoff⟩
      · exact ⟨rfl, rfl, hoff⟩
    · exact ⟨rfl, rfl, hoff⟩
  have hgdes : (gdesPut 2 c value).gact = value ∧ (gdesPut 2 c value).rf_on = false := by
    unfold gdesPut
    rw [h2, cavPut_succ_false]
    simp only []
    split
    · rw [show (1 : ℕ) = 0 + 1 from rfl, cavPut_succ_true]
      simp only []
      split
      · rw [cavPut_zero]
        exact ⟨rfl, hoff⟩
      · exact ⟨rfl, hoff⟩
    · exact ⟨rfl, hoff⟩
  exact ⟨hades.1, hades.2.1, hades.2.2, hgdes.1, hgdes.2, rfl⟩

/-- C4 witness: the powered-off default cavity written with `ADES = 5`. -/
theorem rf_off_write_amended_witness :
    (power_off (mkCavity false)).rf_on = false ∧
      (adesPut 2 (power_off (mkCavity false)) 5).aact = 5 :=
  ⟨rfl, (rf_off_write_amended (power_off (mkCavity false)) 5 rfl).1⟩

/-- C9 (confirmed): for any cavity with RF on and its constructed nonzero
length, once an `ADES` or `GDES` write settles (cascade depth 2) the invariant
`aact = gact * length` holds; on the default non-high-loaded cavity
(`length = 1.038`) writing `ADES = 16.6` leaves `gact = 16.6/1.038 = 8300/519`
and then writing `GDES = 16.0` leaves `aact = 16.0 * 1.038 = 16.608`. -/
theorem amplitude_gradient_invariant :
    (∀ (c : CavState) (value : ℚ), c.rf_on = true → c.length ≠ 0 →
        (adesPut 2 c value).aact = (adesPut 2 c value).gact * (adesPut 2 c value).length ∧
        (gdesPut 2 c value).aact = (gdesPut 2 c value).gact * (gdesPut 2 c value).length) ∧
      (adesPut 2 (mkCavity false) (83 / 5)).gact = 8300 / 519 ∧
      (gdesPut 2 (adesPut 2 (mkCavity false) (83 / 5)) 16).aact = 2076 / 125 := by
  have hmain : ∀ (c : CavState) (value : ℚ), c.length ≠ 0 →
      (adesPut 2 c value).aact = (adesPut 2 c value).gact * (adesPut 2 c value).length ∧
      (gdesPut 2 c value).aact = (gdesPut 2 c value).gact * (gdesPut 2 c value).length := by
    intro c value hl
    constructor
    · rw [show (2 : ℕ) = 0 + 2 from rfl, adesPut_closed 0 c value hl]
      by_cases hg : c.gact = value / c.length
      · rw [if_pos hg]
        simp only []
        rw [hg]
        field_simp
      · rw [if_neg hg]
        simp only []
        field_simp
    · rw [show (2 : ℕ) = 0 + 2 from rfl, gdesPut_closed 0 c value hl]
      by_cases ha : c.aact = value * c.length
      · rw [if_pos ha]
        simp only []
        rw [ha]
      · rw [if_neg ha]
  refine ⟨fun c value _ hl => hmain c value hl, ?_, ?_⟩
  · rw [show (2 : ℕ) = 0 + 2 from rfl, adesPut_closed 0 _ _ (by norm_num [mkCavity])]
    norm_num [mkCavity]
  · rw [show (2 : ℕ) = 0 + 2 from rfl, adesPut_closed 0 _ _ (by norm_num [mkCavity])]
    norm_num [mkCavity]
    rw [show (2 : ℕ) = 0 + 2 from rfl, gdesPut_closed 0 _ _ (by norm_num [mkCavity])]
    norm_num [mkCavity]

/-- C9 witness: the default cavity (RF on, length 1.038) with an amplitude
write of 1. -/
theorem amplitude_gradient_invariant_witness :
    (mkCavity false).rf_on = true ∧ (mkCavity false).length ≠ 0 ∧
      (adesPut 2 (mkCavity false) 1).aact =
        (adesPut 2 (mkCavity false) 1).gact * (adesPut 2 (mkCavity false) 1).length :=
  ⟨rfl, by norm_num [mkCavity],
    (amplitude_gradient_invariant.1 (mkCavity false) 1 rfl (by norm_num [mkCavity])).1⟩

/-- C10 (confirmed): the `ADES`/`GDES` cascade always terminates at nesting
depth at most 2 in exact arithmetic: for every cavity state with the
constructed nonzero length and every written value, allowing any extra cascade
depth beyond 2 changes nothing. -/
theorem cascade_depth_two (c : CavState) (value : ℚ) (hl : c.length ≠ 0) (n : ℕ) :
    adesPut (n + 2) c value = adesPut 2 c value ∧
      gdesPut (n + 2) c value = gdesPut 2 c value := by
  constructor
  · rw [adesPut_closed n c value hl, show (2 : ℕ) = 0 + 2 from rfl,
      adesPut_closed 0 c value hl]
  · rw [gdesPut_closed n c value hl, show (2 : ℕ) = 0 + 2 from rfl,
      gdesPut_closed 0 c value hl]

/-- C10 witness: the default cavity with 5 units of surplus fuel. -/
theorem cascade_depth_two_witness :
    (mkCavity false).length ≠ 0 ∧
      adesPut (5 + 2) (mkCavity false) 7 = adesPut 2 (mkCavity false) 7 :=
  ⟨by norm_num [mkCavity],
    (cascade_depth_two (mkCavity false) 7 (by norm_num [mkCavity]) 5).1⟩

/-! ### Stepper motor

From `StepperPVGroup` in `sc_rf_service.py`:

    def __init__(...):
        if not self.cavity_group.is_hl: self.steps_per_hertz = 256 / 1.4
        else:                           self.steps_per_hertz = 256 / 18.3

    async def move(self, move_sign_des):
        await self.motor_moving.write("Moving")
        steps = 0
        step_change = move_sign_des * self.speed.value
        freq_move_sign = move_sign_des if self.cavity_group.is_hl else -move_sign_des
        while self.step_des.value - steps >= self.speed.value and self.abort.value != 1:
            await self.step_tot.write(self.step_tot.value + self.speed.value)
            await self.step_signed.write(self.step_signed.value + step_change)
            steps += self.speed.value
            delta = self.speed.value // self.steps_per_hertz
            new_detune = self.cavity_group.detune.value + (freq_move_sign * delta)
            await self.cavity_group.detune.write(new_detune)
            ...
            await sleep(1)
        if self.abort.value == 1:
            await self.motor_moving.write("Not Moving")
            await self.abort.write(0)
            return
        remainder = self.step_des.value - steps
        await self.step_tot.write(self.step_tot.value + remainder)
        step_change = move_sign_des * remainder
        await self.step_signed.write(self.step_signed.value + step_change)
        delta = remainder // self.steps_per_hertz
        new_detune = self.cavity_group.detune.value + (freq_move_sign * delta)
        ... piezo feedback voltage write ...
        await self.cavity_group.detune.write(new_detune)
        await self.motor_moving.write("Not Moving")
        await self.motor_done.write("Done")

`//` on a positive float divisor is the floor of the exact quotient, `⌊x / k⌋`
here.  The abort PV is written by an external client between ticks; it is
modelled by an observation schedule `abortAt : Option ℕ`: the loop's guard
check number `i` (and the post-loop re-check, which happens at the exit check
index) sees `abort == 1` exactly when `abortAt = some a` with `a ≤ i`.  The
guard below adds `0 < speed`, under which the source loop terminates; for
`speed ≤ 0` the source loop would never exit on its own.  The optional piezo
feedback voltage write touches no field any claim mentions and is omitted. -/

/-- Mutable stepper/cavity state touched by `move`: the two step registers,
the cavity detune, the motor status flags, and the abort request flag. -/
structure MoveState where
  step_tot : ℤ
  step_signed : ℤ
  detune : ℚ
  motor_moving : Bool
  motor_done : Bool
  abort_flag : Bool
deriving DecidableEq

/-- `steps_per_hertz` from `StepperPVGroup.__init__` (256/1.4 for normal,
256/18.3 for high-loaded cryomodules). -/
def steps_per_hertz (is_hl : Bool) : ℚ :=
  if is_hl then 256 / (183 / 10) else 256 / (14 / 10)

/-- Whether the abort write has become visible by guard check number `i`. -/
def abortObserved : Option ℕ → ℕ → Bool
  | none, _ => false
  | some a, i => decide (a ≤ i)

/-- One full-speed loop iteration: accumulate both step registers and apply
the per-tick detune delta `freq_move_sign * (speed // steps_per_hertz)`. -/
def tickUpdate (sign speed : ℤ) (k : ℚ) (fsign : ℤ) (st : MoveState) : MoveState :=
  { st with
    step_tot := st.step_tot + speed
    step_signed := st.step_signed + sign * speed
    detune := st.detune + ((fsign * ⌊(speed : ℚ) / k⌋ : ℤ) : ℚ) }

/-- The while-loop of `StepperPVGroup.move`; returns the exit check index, the
local `steps` counter and the mutated state. -/
def moveLoop (sign speed : ℤ) (k : ℚ) (fsign : ℤ) (step_des : ℤ)
    (abortAt : Option ℕ) (i : ℕ) (steps : ℤ) (st : MoveState) : ℕ × ℤ × MoveState :=
  if h : 0 < speed ∧ speed ≤ step_des - steps ∧ abortObserved abortAt i = false then
    moveLoop sign speed k fsign step_des abortAt (i + 1) (steps + speed)
      (tickUpdate sign speed k fsign st)
  else (i, steps, st)
termination_by (step_des - steps).toNat
decreasing_by
  have h1 := h.1
  have h2 := h.2.1
  omega

/-- `StepperPVGroup.move(move_sign_des)`: flag the motor as moving, run the
loop, then either take the abort path (clear the abort flag, stop) or process
the remainder as a final partial step and flag done. -/
def move (sign speed : ℤ) (k : ℚ) (is_hl : Bool) (step_des : ℤ)
    (abortAt : Option ℕ) (st0 : MoveState) : MoveState :=
  let fsign : ℤ := if is_hl then sign else -sign
  let r0 := moveLoop sign speed k fsign step_des abortAt 0 0
    { st0 with motor_moving := true }
  let st := r0.2.2
  if abortObserved abortAt r0.1 then
    { st with motor_moving := false, abort_flag := false }
  else
    let rem := step_des - r0.2.1
    { st with
      step_tot := st.step_tot + rem
      step_signed := st.step_signed + sign * rem
      detune := st.detune + ((fsign * ⌊(rem : ℚ) / k⌋ : ℤ) : ℚ)
      motor_moving := false
      motor_done := true }

/-- Unrolled characterisation of `moveLoop` when no abort is ever observed:
it performs some number `t` of full ticks and stops exactly when fewer than
`speed` steps remain. -/
theorem moveLoop_none_spec (sign speed : ℤ) (k : ℚ) (fsign : ℤ) (step_des : ℤ)
    (hs : 0 < speed) (m : ℕ) :
    ∀ (i : ℕ) (steps : ℤ) (st : MoveState), (step_des - steps).toNat ≤ m →
      ∃ t : ℕ,
        (moveLoop sign speed k fsign step_des none i steps st).1 = i + t ∧
        (moveLoop sign speed k fsign step_des none i steps st).2.1
          = steps + t * speed ∧
        (moveLoop sign speed k fsign step_des none i steps st).2.2.step_tot
          = st.step_tot + t * speed ∧
        (moveLoop sign speed k fsign step_des none i steps st).2.2.step_signed
          = st.step_signed + sign * (t * speed) ∧
        (moveLoop sign speed k fsign step_des none i steps st).2.2.detune
          = st.detune + (t : ℚ) * ((fsign * ⌊(speed : ℚ) / k⌋ : ℤ) : ℚ) ∧
        (moveLoop sign speed k fsign step_des none i steps st).2.2.motor_moving
          = st.motor_moving ∧
        (moveLoop sign speed k fsign step_des none i steps st).2.2.motor_done
          = st.motor_done ∧
        (moveLoop sign speed k fsign step_des none i steps st).2.2.abort_flag
          = st.abort_flag ∧
        step_des - (steps + t * speed) < speed ∧
        (steps ≤ step_des → steps + t * speed ≤ step_des) := by
  induction m with
  | zero =>
      intro i steps st hm
      rw [moveLoop]
      split
      · rename_i h
        exfalso
        omega
      · rename_i h
        have hlt : step_des - steps < speed := by
          by_contra hge
          push_neg at hge
          exact h ⟨hs, hge, rfl⟩
        refine ⟨0, by simp, by simp, by simp, by simp, by simp, rfl, rfl, rfl, ?_, ?_⟩
        · simpa using hlt
        · intro hle
          simpa using hle
  | succ m ih =>
      intro i steps st hm
      rw [moveLoop]
      split
      · rename_i h
        have hm' : (step_des - (steps + speed)).toNat ≤ m := by omega
        obtain ⟨t, h1, h2, h3, h4, h5, h6, h7, h8, h9, h10⟩ :=
          ih (i + 1) (steps + speed) (tickUpdate sign speed k fsign st) hm'
        refine ⟨t + 1, ?_, ?_, ?_, ?_, ?_, ?_, ?_, ?_, ?_, ?_⟩
        · rw [h1]; omega
        · rw [h2]; push_cast; ring
        · rw [h3]; simp only [tickUpdate]; push_cast; ring
        · rw [h4]; simp only [tickUpdate]; push_cast; ring
        · rw [h5]; simp only [tickUpdate]; push_cast; ring
        · rw [h6]; rfl
        · rw [h7]; rfl
        · rw [h8]; rfl
        · have := h9; push_cast at this ⊢; linarith [this]
        · intro hle
          have h2' := h.2.1
          have : steps + speed ≤ step_des := by omega
          have := h10 this
          push_cast at this ⊢
          linarith [this]
      · rename_i h
        have hlt : step_des - steps < speed := by
          by_contra hge
          push_neg at hge
          exact h ⟨hs, hge, rfl⟩
        refine ⟨0, by simp, by simp, by simp, by simp, by simp, rfl, rfl, rfl, ?_, ?_⟩
        · simpa using hlt
        · intro hle
          simpa using hle

/-- Characterisation of an uninterrupted `move`: writing `step_des = N ≥ 0`
steps at positive `speed` performs `t` full ticks plus a remainder
`rem = N - t * speed ∈ [0, speed)`, accumulating both step registers by the
full requested count and the detune by
`fsign * (t * ⌊speed/k⌋ + ⌊rem/k⌋)`. -/
theorem move_none_spec (sign speed : ℤ) (k : ℚ) (is_hl : Bool) (step_des : ℤ)
    (st0 : MoveState) (hs : 0 < speed) (hN : 0 ≤ step_des) :
    ∃ t : ℕ, ∃ rem : ℤ,
      step_des = t * speed + rem ∧ 0 ≤ rem ∧ rem < speed ∧
      (move sign speed k is_hl step_des none st0).step_signed
        = st0.step_signed + sign * step_des ∧
      (move sign speed k is_hl step_des none st0).step_tot
        = st0.step_tot + step_des ∧
      (move sign speed k is_hl step_des none st0).detune
        = st0.detune +
            (((if is_hl then sign else -sign) *
              (t * ⌊(speed : ℚ) / k⌋ + ⌊(rem : ℚ) / k⌋) : ℤ) : ℚ) ∧
      (move sign speed k is_hl step_des none st0).motor_moving = false ∧
      (move sign speed k is_hl step_des none st0).motor_done = true ∧
      (move sign speed k is_hl step_des none st0).abort_flag = st0.abort_flag := by
  obtain ⟨t, h1, h2, h3, h4, h5, h6, h7, h8, h9, h10⟩ :=
    moveLoop_none_spec sign speed k (if is_hl then sign else -sign) step_des hs
      (step_des - 0).toNat 0 0 { st0 with motor_moving := true } (le_refl _)
  have hrem0 : (0 : ℤ) ≤ step_des → 0 + (t : ℤ) * speed ≤ step_des := h10
  refine ⟨t, step_des - (0 + t * speed), ?_, ?_, ?_, ?_, ?_, ?_, ?_, ?_, ?_⟩
  · ring
  · have := hrem0 hN
    omega
  · omega
  · show (move sign speed k is_hl step_des none st0).step_signed = _
    unfold move
    simp only []
    rw [if_neg (by rw [h1]; simp [abortObserved])]
    simp only []
    rw [h2, h4]
    simp only []
    push_cast
    ring
  · unfold move
    simp only []
    rw [if_neg (by rw [h1]; simp [abortObserved])]
    simp only []
    rw [h2, h3]
    simp only []
    push_cast
    ring
  · unfold move
    simp only []
    rw [if_neg (by rw [h1]; simp [abortObserved])]
    simp only []
    rw [h2, h5]
    simp only []
    push_cast
    ring
  · unfold move
    simp only []
    rw [if_neg (by rw [h1]; simp [abortObserved])]
  · unfold move
    simp only []
    rw [if_neg (by rw [h1]; simp [abortObserved])]
  · unfold move
    simp only []
    rw [if_neg (by rw [h1]; simp [abortObserved])]
    simp only []
    rw [h8]

/-- Characterisation of `moveLoop` when the abort becomes visible at check
`i + d` and at least `d` more full ticks fit into the request: the loop runs
exactly `d` more ticks and exits at check `i + d`. -/
theorem moveLoop_abort_spec (sign speed : ℤ) (k : ℚ) (fsign : ℤ) (step_des : ℤ)
    (hs : 0 < speed) :
    ∀ (d : ℕ) (i : ℕ) (steps : ℤ) (st : MoveState),
      steps + d * speed ≤ step_des →
      (moveLoop sign speed k fsign step_des (some (i + d)) i steps st).1 = i + d ∧
      (moveLoop sign speed k fsign step_des (some (i + d)) i steps st).2.1
        = steps + d * speed ∧
      (moveLoop sign speed k fsign step_des (some (i + d)) i steps st).2.2.step_tot
        = st.step_tot + d * speed ∧
      (moveLoop sign speed k fsign step_des (some (i + d)) i steps st).2.2.step_signed
        = st.step_signed + sign * (d * speed) ∧
      (moveLoop sign speed k fsign step_des (some (i + d)) i steps st).2.2.detune
        = st.detune + (d : ℚ) * ((fsign * ⌊(speed : ℚ) / k⌋ : ℤ) : ℚ) ∧
      (moveLoop sign speed k fsign step_des (some (i + d)) i steps st).2.2.motor_moving
        = st.motor_moving ∧
      (moveLoop sign speed k fsign step_des (some (i + d)) i steps st).2.2.motor_done
        = st.motor_done ∧
      (moveLoop sign speed k fsign step_des (some (i + d)) i steps st).2.2.abort_flag
        = st.abort_flag := by
  intro d
  induction d with
  | zero =>
      intro i steps st hd
      rw [moveLoop]
      rw [dif_neg]
      · exact ⟨rfl, by simp, by simp, by simp, by simp, rfl, rfl, rfl⟩
      · intro hcon
        have hobs := hcon.2.2
        simp [abortObserved] at hobs
  | succ d ih =>
      intro i steps st hd
      rw [moveLoop]
      rw [dif_pos]
      · have harg : i + (d + 1) = (i + 1) + d := by omega
        rw [harg]
        obtain ⟨h1, h2, h3, h4, h5, h6, h7, h8⟩ :=
          ih (i + 1) (steps + speed) (tickUpdate sign speed k fsign st) (by push_cast; push_cast at hd; linarith)
        refine ⟨?_, ?_, ?_, ?_, ?_, ?_, ?_, ?_⟩
        · rw [h1]
        · rw [h2]; push_cast; ring
        · rw [h3]; simp only [tickUpdate]; push_cast; ring
        · rw [h4]; simp only [tickUpdate]; push_cast; ring
        · rw [h5]; simp only [tickUpdate]; push_cast; ring
        · rw [h6]; rfl
        · rw [h7]; rfl
        · rw [h8]; rfl
      · refine ⟨hs, ?_, ?_⟩
        · push_cast at hd
          nlinarith [Int.natCast_nonneg d, hs]
        · simp [abortObserved]

/-- Characterisation of an aborted `move`: if the abort is observed at check
`A` and `A` full ticks fit the request, the move stops there, processes no
remainder, clears the abort flag, flags the motor as not moving, and leaves
`motor_done` untouched. -/
theorem move_abort_spec (sign speed : ℤ) (k : ℚ) (is_hl : Bool) (step_des : ℤ)
    (A : ℕ) (st0 : MoveState) (hs : 0 < speed) (hA : (A : ℤ) * speed ≤ step_des) :
    (move sign speed k is_hl step_des (some A) st0).step_signed
      = st0.step_signed + sign * (A * speed) ∧
    (move sign speed k is_hl step_des (some A) st0).step_tot
      = st0.step_tot + A * speed ∧
    (move sign speed k is_hl step_des (some A) st0).detune
      = st0.detune +
          (A : ℚ) * (((if is_hl then sign else -sign) * ⌊(speed : ℚ) / k⌋ : ℤ) : ℚ) ∧
    (move sign speed k is_hl step_des (some A) st0).motor_moving = false ∧
    (move sign speed k is_hl step_des (some A) st0).abort_flag = false ∧
    (move sign speed k is_hl step_des (some A) st0).motor_done = st0.motor_done := by
  have h0A : (0 : ℕ) + A = A := by omega
  obtain ⟨h1, h2, h3, h4, h5, h6, h7, h8⟩ :=
    moveLoop_abort_spec sign speed k (if is_hl then sign else -sign) step_des hs
      A 0 0 { st0 with motor_moving := true } (by simpa using hA)
  rw [h0A] at h1 h2 h3 h4 h5 h6 h7 h8
  have hobs : abortObserved (some A)
      (moveLoop sign speed k (if is_hl then sign else -sign) step_des (some A) 0 0
        { st0 with motor_moving := true }).1 = true := by
    rw [h1]
    simp [abortObserved]
  refine ⟨?_, ?_, ?_, ?_, ?_, ?_⟩
  · unfold move
    simp only []
    rw [if_pos hobs]
    simp only [h4]
  · unfold move
    simp only []
    rw [if_pos hobs]
    simp only [h3]
  · unfold move
    simp only []
    rw [if_pos hobs]
    simp only [h5]
  · unfold move
    simp only []
    rw [if_pos hobs]
  · unfold move
    simp only []
    rw [if_pos hobs]
  · unfold move
    simp only []
    rw [if_pos hobs]
    simp only [h7]

/-- The idle stepper/cavity state used for concrete instances: both step
registers at 0, detune 0, motor idle and done, no abort pending. -/
def mv0 : MoveState := ⟨0, 0, 0, false, true, false⟩

/-- A stepper state whose `motor_moving` flag is already set, as during an
in-flight move. -/
def mvMoving : MoveState := ⟨0, 0, 0, true, true, false⟩

/-- C5 (amended): an uninterrupted move of `N ≥ 0` requested steps at
`speed > 0` steps per tick changes `step_signed` by exactly `sign * N` and
`step_tot` by exactly `N`; writing `N = t * speed + rem` with `0 ≤ rem <
speed`, the detune changes by exactly
`direction_sign * (t * ⌊speed/k⌋ + ⌊rem/k⌋)` where the direction sign is the
requested sign for high-loaded cryomodules and its negation otherwise.  The
magnitude `t * ⌊speed/k⌋ + ⌊rem/k⌋` underestimates the exact `N / k` by one
floor per tick: it lies in `(N/k - (t+1), N/k]`, not within a single tick's
rounding of `N/k` (see the counterexample). -/
theorem stepper_move_amended (sign speed : ℤ) (k : ℚ) (is_hl : Bool) (N : ℤ)
    (st0 : MoveState) (hs : 0 < speed) (hN : 0 ≤ N) :
    ∃ t : ℕ, ∃ rem : ℤ,
      N = t * speed + rem ∧ 0 ≤ rem ∧ rem < speed ∧
      (move sign speed k is_hl N none st0).step_signed = st0.step_signed + sign * N ∧
      (move sign speed k is_hl N none st0).step_tot = st0.step_tot + N ∧
      (move sign speed k is_hl N none st0).detune
        = st0.detune + (((if is_hl then sign else -sign) *
            (t * ⌊(speed : ℚ) / k⌋ + ⌊(rem : ℚ) / k⌋) : ℤ) : ℚ) ∧
      (N : ℚ) / k - (t + 1) < ((t * ⌊(speed : ℚ) / k⌋ + ⌊(rem : ℚ) / k⌋ : ℤ) : ℚ) ∧
      ((t * ⌊(speed : ℚ) / k⌋ + ⌊(rem : ℚ) / k⌋ : ℤ) : ℚ) ≤ (N : ℚ) / k := by
  obtain ⟨t, rem, heq, hr0, hrlt, hsg, htot, hdet, hmv, hdn, hab⟩ :=
    move_none_spec sign speed k is_hl N st0 hs hN
  have hFl : ((⌊(speed : ℚ) / k⌋ : ℤ) : ℚ) ≤ (speed : ℚ) / k := Int.floor_le _
  have hFg : (speed : ℚ) / k - 1 < ((⌊(speed : ℚ) / k⌋ : ℤ) : ℚ) := by
    have := Int.lt_floor_add_one ((speed : ℚ) / k)
    linarith
  have hGl : ((⌊(rem : ℚ) / k⌋ : ℤ) : ℚ) ≤ (rem : ℚ) / k := Int.floor_le _
  have hGg : (rem : ℚ) / k - 1 < ((⌊(rem : ℚ) / k⌋ : ℤ) : ℚ) := by
    have := Int.lt_floor_add_one ((rem : ℚ) / k)
    linarith
  have ht0 : (0 : ℚ) ≤ (t : ℚ) := by positivity
  have hNk : (N : ℚ) / k = (t : ℚ) * ((speed : ℚ) / k) + (rem : ℚ) / k := by
    rw [heq]
    push_cast
    ring
  refine ⟨t, rem, heq, hr0, hrlt, hsg, htot, hdet, ?_, ?_⟩
  · push_cast
    rw [hNk]
    nlinarith [mul_le_mul_of_nonneg_left (le_of_lt hFg) ht0]
  · push_cast
    rw [hNk]
    nlinarith [mul_le_mul_of_nonneg_left hFl ht0]

/-- C5 witness: sign +1, 60000 steps at speed 20000 on a non-high-loaded
stepper: `step_signed` grows by exactly the requested count. -/
theorem stepper_move_amended_witness :
    (move 1 20000 (steps_per_hertz false) false 60000 none mv0).step_signed
      = mv0.step_signed + 1 * 60000 := by
  obtain ⟨t, rem, _, _, _, hsigned, _⟩ :=
    stepper_move_amended 1 20000 (steps_per_hertz false) false 60000 mv0
      (by norm_num) (by norm_num)
  exact hsigned

/-- C5 counterexample: on the non-high-loaded stepper
(`steps_per_hertz = 256/1.4 = 1280/7`), a move of 60000 steps at speed 20000
changes the detune by `-327`, which misses the claimed
`direction_sign * N / k = -328.125` by `9/8 > 1` — more than one tick's
rounding; at speed 200 with 20000 steps the miss is `75/8 = 9.375`, larger
even than a whole tick's detune increment `200/k = 35/32`. -/
theorem stepper_detune_counterexample :
    (move 1 20000 (steps_per_hertz false) false 60000 none mv0).detune - mv0.detune
        - (-(60000 / steps_per_hertz false)) = 9 / 8 ∧
      (9 : ℚ) / 8 > 1 ∧
      (move 1 200 (steps_per_hertz false) false 20000 none mv0).detune - mv0.detune
        - (-(20000 / steps_per_hertz false)) = 75 / 8 ∧
      (75 : ℚ) / 8 > 200 / steps_per_hertz false := by
  have hk1 : ⌊(20000 : ℚ) / steps_per_hertz false⌋ = 109 := by
    rw [Int.floor_eq_iff]
    constructor <;> norm_num [steps_per_hertz]
  have hk2 : ⌊(200 : ℚ) / steps_per_hertz false⌋ = 1 := by
    rw [Int.floor_eq_iff]
    constructor <;> norm_num [steps_per_hertz]
  refine ⟨?_, by norm_num, ?_, by norm_num [steps_per_hertz]⟩
  · obtain ⟨t, rem, heq, hr0, hrlt, _, _, hdet, _⟩ :=
      move_none_spec 1 20000 (steps_per_hertz false) false 60000 mv0
        (by norm_num) (by norm_num)
    have htr : t = 3 ∧ rem = 0 := by
      constructor <;> omega
    obtain ⟨ht, hr⟩ := htr
    subst ht hr
    rw [hdet]
    push_cast [hk1]
    norm_num [mv0, steps_per_hertz]
  · obtain ⟨t, rem, heq, hr0, hrlt, _, _, hdet, _⟩ :=
      move_none_spec 1 200 (steps_per_hertz false) false 20000 mv0
        (by norm_num) (by norm_num)
    have htr : t = 100 ∧ rem = 0 := by
      constructor <;> omega
    obtain ⟨ht, hr⟩ := htr
    subst ht hr
    rw [hdet]
    push_cast [hk2]
    norm_num [mv0, steps_per_hertz]

/-- C7 (amended): `StepperPVGroup.move` performs no already-moving check.  A
move issued while `motor_moving` is set proceeds exactly as one issued while
idle — the flag is simply overwritten at the start of the move — and the
result is independent of the initial value of the flag; no error or alarm is
raised and the request is not a no-op. -/
theorem stepper_no_reject_amended (sign speed : ℤ) (k : ℚ) (is_hl : Bool)
    (N : ℤ) (a : Option ℕ) (st : MoveState) (b : Bool) :
    move sign speed k is_hl N a { st with motor_moving := b }
      = move sign speed k is_hl N a st := by
  cases st
  rfl

/-- C7 counterexample: with `motor_moving` already true, a second request of
100 steps is not rejected: it accumulates `step_signed` from 0 to 100 instead
of being a no-op. -/
theorem stepper_no_reject_counterexample :
    mvMoving.motor_moving = true ∧ mvMoving.step_signed = 0 ∧
      (move 1 20000 (steps_per_hertz false) false 100 none mvMoving).step_signed = 100 := by
  refine ⟨rfl, rfl, ?_⟩
  obtain ⟨t, rem, _, _, _, hsigned, _⟩ :=
    move_none_spec 1 20000 (steps_per_hertz false) false 100 mvMoving
      (by norm_num) (by norm_num)
  rw [hsigned]
  norm_num [mvMoving]

/-- C8 (confirmed): when the abort is observed after `A` completed ticks of an
in-flight move (`A * speed ≤ N`), the move stops at that tick boundary:
`step_signed` changed by exactly `sign * speed * A` (only the completed
ticks), `step_tot` by `speed * A`, the detune by `A` per-tick increments and
nothing more (the remainder is not processed), the abort flag is cleared,
`motor_moving` is false, and `motor_done` is left untouched. -/
theorem stepper_abort_semantics (sign speed : ℤ) (k : ℚ) (is_hl : Bool)
    (N : ℤ) (A : ℕ) (st0 : MoveState) (hs : 0 < speed) (hA : (A : ℤ) * speed ≤ N) :
    (move sign speed k is_hl N (some A) st0).step_signed - st0.step_signed
      = sign * (speed * A) ∧
    (move sign speed k is_hl N (some A) st0).step_tot - st0.step_tot
      = speed * A ∧
    (move sign speed k is_hl N (some A) st0).detune - st0.detune
      = (A : ℚ) * (((if is_hl then sign else -sign) * ⌊(speed : ℚ) / k⌋ : ℤ) : ℚ) ∧
    (move sign speed k is_hl N (some A) st0).motor_moving = false ∧
    (move sign speed k is_hl N (some A) st0).abort_flag = false ∧
    (move sign speed k is_hl N (some A) st0).motor_done = st0.motor_done := by
  obtain ⟨h1, h2, h3, h4, h5, h6⟩ := move_abort_spec sign speed k is_hl N A st0 hs hA
  refine ⟨?_, ?_, ?_, h4, h5, h6⟩
  · rw [h1]; ring
  · rw [h2]; ring
  · rw [h3]; ring

/-- C8 witness: a 60000-step request at speed 20000 aborted after one
completed tick accumulates exactly one tick of steps and clears the flags. -/
theorem stepper_abort_semantics_witness :
    (0 : ℤ) < 20000 ∧ ((1 : ℕ) : ℤ) * 20000 ≤ 60000 ∧
      (move 1 20000 (steps_per_hertz false) false 60000 (some 1) mv0).step_signed
          - mv0.step_signed = 1 * (20000 * 1) ∧
      (move 1 20000 (steps_per_hertz false) false 60000 (some 1) mv0).abort_flag = false :=
  ⟨by norm_num, by norm_num,
    (stepper_abort_semantics 1 20000 (steps_per_hertz false) false 60000 1 mv0
      (by norm_num) (by norm_num)).1,
    (stepper_abort_semantics 1 20000 (steps_per_hertz false) false 60000 1 mv0
      (by norm_num) (by norm_num)).2.2.2.2.1⟩

/-! ### SSA calibration

From `SSAPVGroup.cal_start` in `sc_rf_service.py`:

    @cal_start.putter
    async def cal_start(self, instance, value):
        await self.cal_status.write("Running")
        await sleep(5)
        await self.cal_status.write("Complete")
        await self.slope_new.write(uniform(0.5, 1.5))
        if random() < 0.2:
            await self.cal_stat.write("Crash")
        else:
            await self.cal_stat.write("Success")

The two random draws are passed in explicitly: `slopeDraw` stands for
`uniform(0.5, 1.5)` (so `1/2 ≤ slopeDraw ≤ 3/2` for any actual draw) and
`roll` for `random()` (uniform on `[0,1)`). -/

/-- Values of the `CALSTS` enum PV. -/
inductive CalStatus
  | Crash
  | Complete
  | Running
deriving DecidableEq

/-- Values of the `CALSTAT` enum PV. -/
inductive CalStat
  | Success
  | Crash
deriving DecidableEq

/-- SSA calibration state: the `CALSTS` status PV, the `CALSTAT` outcome PV
and the `SLOPE_NEW` value. -/
structure SSAState where
  cal_status : CalStatus
  cal_stat : CalStat
  slope_new : ℚ
deriving DecidableEq

/-- The calibration state right after the first write of `cal_start`, before
the simulated 5 s delay. -/
def cal_start_running (st : SSAState) : SSAState :=
  { st with cal_status := CalStatus.Running }

/-- `SSAPVGroup.cal_start` run to completion with the two random draws given
explicitly. -/
def cal_start (st : SSAState) (slopeDraw roll : ℚ) : SSAState :=
  let st1 := cal_start_running st
  let st2 := { st1 with cal_status := CalStatus.Complete }
  let st3 := { st2 with slope_new := slopeDraw }
  if roll < 1 / 5 then { st3 with cal_stat := CalStat.Crash }
  else { st3 with cal_stat := CalStat.Success }

/-- C6 counterexample: a calibration whose crash roll lands below 0.2 reports
`Crash` on `CALSTAT` — yet the slope has still been overwritten with the fresh
draw (1 here, replacing 0), because `slope_new` is written before the crash
roll is taken; and `CALSTS` reads `Complete`, not `Crashed`.  "Slope unchanged
on crash" is false on the code. -/
theorem cal_start_counterexample :
    (cal_start ⟨CalStatus.Complete, CalStat.Success, 0⟩ 1 0).cal_stat = CalStat.Crash ∧
      (cal_start ⟨CalStatus.Complete, CalStat.Success, 0⟩ 1 0).slope_new = 1 ∧
      (⟨CalStatus.Complete, CalStat.Success, 0⟩ : SSAState).slope_new = 0 ∧
      (cal_start ⟨CalStatus.Complete, CalStat.Success, 0⟩ 1 0).cal_status
        = CalStatus.Complete := by
  refine ⟨?_, ?_, rfl, ?_⟩ <;> norm_num [cal_start, cal_start_running]

/-- C6 (amended): `cal_start` first sets the calibration status to `Running`
and, after the fixed delay, always leaves `CALSTS = Complete` (never stuck in
`Running`); the crash outcome is reported on the separate `CALSTAT` PV, as
`Crash` exactly when the independent roll is below 0.2 and `Success`
otherwise; the slope is overwritten with the fresh bounded-uniform draw in
both outcomes, so a draw within `[0.5, 1.5]` leaves the slope in
`[0.5, 1.5]`. -/
theorem cal_start_amended (st : SSAState) (slopeDraw roll : ℚ) :
    (cal_start_running st).cal_status = CalStatus.Running ∧
      (cal_start st slopeDraw roll).cal_status = CalStatus.Complete ∧
      (cal_start st slopeDraw roll).cal_status ≠ CalStatus.Running ∧
      (cal_start st slopeDraw roll).slope_new = slopeDraw ∧
      ((cal_start st slopeDraw roll).cal_stat = CalStat.Crash ↔ roll < 1 / 5) ∧
      (1 / 2 ≤ slopeDraw → slopeDraw ≤ 3 / 2 →
        1 / 2 ≤ (cal_start st slopeDraw roll).slope_new ∧
          (cal_start st slopeDraw roll).slope_new ≤ 3 / 2) := by
  have hcs : (cal_start st slopeDraw roll).cal_status = CalStatus.Complete := by
    unfold cal_start cal_start_running
    split <;> rfl
  have hsl : (cal_start st slopeDraw roll).slope_new = slopeDraw := by
    unfold cal_start cal_start_running
    split <;> rfl
  have hstat : (cal_start st slopeDraw roll).cal_stat = CalStat.Crash ↔ roll < 1 / 5 := by
    unfold cal_start cal_start_running
    split
    · rename_i hr
      simpa using hr
    · rename_i hr
      simpa using hr
  refine ⟨rfl, hcs, ?_, hsl, hstat, fun h1 h2 => ?_⟩
  · rw [hcs]
    intro hcon
    cases hcon
  · rw [hsl]
    exact ⟨h1, h2⟩

/-- C6 witness: slope draw 1, roll 1/2 (no crash): the status ends `Complete`
and the slope, drawn inside the bounds, lies inside them. -/
theorem cal_start_amended_witness :
    (cal_start ⟨CalStatus.Complete, CalStat.Success, 0⟩ 1 (1 / 2)).cal_status
        = CalStatus.Complete ∧
      (1 : ℚ) / 2 ≤ (cal_start ⟨CalStatus.Complete, CalStat.Success, 0⟩ 1 (1 / 2)).slope_new :=
  ⟨(cal_start_amended ⟨CalStatus.Complete, CalStat.Success, 0⟩ 1 (1 / 2)).2.1,
    ((cal_start_amended ⟨CalStatus.Complete, CalStat.Success, 0⟩ 1 (1 / 2)).2.2.2.2.2
      (by norm_num) (by norm_num)).1⟩
